import Mathlib

/-!
Shallow embedding of the bigpipe middleware (`src/index.js`).

`attach(server, options)` validates the configured pages and returns a
middleware closure `middlware(req, res, next)`.  The middleware derives a
route key `req.method + '@' + pathname`, consults an expiring route cache,
falls back to a linear `filter` over the registered pages, caches the
resolved route, instantiates the matched page, wires a 500 error handler,
and registers the instance in an expiring instance registry under
`session + ':' + id`.

External collaborators that are not part of this repository's source
(the `expirable` module, `url.parse`, the host HTTP response object, the
`routable` matcher) are modelled from the spec, each marked as such in its
doc comment.
-/

namespace Bigpipe

/-- JS `String.prototype.toLowerCase()` (`page.prototype.method.toLowerCase()`
and `req.method.toLowerCase()` on line 123 of `src/index.js`): lowercases
every character of the string. -/
def lowercase (s : String) : String := ⟨s.data.map Char.toLower⟩

/-- Modelled from the spec: `url.parse(req.url).pathname` — the Dispatcher
derives the pathname with the query string (and fragment) stripped, i.e. the
prefix of the request URL before the first `?` or `#`. -/
def pathname (u : String) : String :=
  ⟨u.data.takeWhile (fun c => decide (c ≠ '?' ∧ c ≠ '#'))⟩

/-- Modelled from the spec: the `routable` collaborator (Pattern Router,
spec §4.1) — a compiled matcher exposing `test` and `exec` over a pathname. -/
structure Matcher where
  test : String → Bool
  exec : String → List (String × String)

/-- Modelled from the spec: the third-party `expirable` module (Expiring Map,
spec §4.2) — a string-keyed map whose entries carry a last-touched timestamp;
an entry whose idle time since last touch reaches the TTL is treated as
absent on lookup; `set` inserts or overwrites and resets the idle timer.
Time is in milliseconds. -/
structure ExpiringMap (α : Type) where
  ttl : Nat
  entries : List (String × α × Nat)

def ExpiringMap.empty (α : Type) (ttl : Nat) : ExpiringMap α := ⟨ttl, []⟩

def ExpiringMap.get {α : Type} (m : ExpiringMap α) (k : String) (now : Nat) :
    Option α :=
  match m.entries.find? (fun e => decide (e.1 = k)) with
  | some (_, v, t) => if m.ttl ≤ now - t then none else some v
  | none => none

def ExpiringMap.set {α : Type} (m : ExpiringMap α) (k : String) (v : α)
    (now : Nat) : ExpiringMap α :=
  ⟨m.ttl, (k, v, now) :: m.entries.filter (fun e => decide (e.1 ≠ k))⟩

/-- `'5 minutes'`, the TTL string passed to both `Expirable` constructors on
lines 31–32 of `src/index.js`, in milliseconds. -/
def fiveMinutes : Nat := 300000

/-- A registered page after `attach`-time processing: class-level metadata
`prototype.method` and `prototype.path`, the compiled `router`, and an
identity for the constructor itself (used to compare which constructor a
page instance was built from). -/
structure Descriptor where
  method : String
  path : String
  router : Matcher
  ctorId : Nat

/-- A page instance produced by `new Page({ req: req, res: res, params: p })`:
we record which constructor built it and the params it was given. -/
structure PageInstance where
  ctorId : Nat
  params : List (String × String)
deriving DecidableEq

/-- The value stored in the route cache on a scan match (line 130–131 of
`src/index.js`): `{ Page: cached.shift(), params: Page.router.exec(uri) }`. -/
structure Resolved where
  Page : Descriptor
  params : List (String × String)

/-- An incoming HTTP request: `req.method`, `req.url`, and `req.sessionID`
(which may be absent, i.e. `undefined`). -/
structure Request where
  method : String
  url : String
  sessionID : Option String

/-- Modelled from the spec: the host HTTP response collaborator (§5, §6).
At most one response body can be written per request: once `ended`, further
status assignments and `end` calls do not reach the wire.  `writes` counts
the body writes that actually landed. -/
structure Res where
  statusCode : Option Nat
  body : Option String
  ended : Bool
  writes : Nat
deriving DecidableEq

def Res.init : Res := ⟨none, none, false, 0⟩

def Res.setStatus (r : Res) (c : Nat) : Res :=
  if r.ended then r else { r with statusCode := some c }

def Res.end' (r : Res) (msg : String) : Res :=
  if r.ended then r
  else { r with body := some msg, ended := true, writes := r.writes + 1 }

/-- `fivehundered(req, res, err)` (lines 90–93 of `src/index.js`):
`res.statusCode = 500; res.end(err.message);`. -/
def fivehundered (res : Res) (errMessage : String) : Res :=
  (res.setStatus 500).end' errMessage

/-- The literal fallback body written by `fourohfour` when no NotFound page
is configured (line 108 of `src/index.js`). -/
def notFoundBody : String := "404, Not found"

/-- `fourohfour(req, res)` (lines 101–110 of `src/index.js`): sets a 404
status, then either instantiates the configured `NotFound` page with empty
params or ends the response with the literal fallback body.  Defined for
fidelity; nothing in the middleware calls it. -/
def fourohfour (NotFound : Option Nat) (res : Res) : Res × Option PageInstance :=
  let res := res.setStatus 404
  match NotFound with
  | some ctorId => (res, some ⟨ctorId, []⟩)
  | none => (res.end' notFoundBody, none)

/-- JS string coercion applied to `req.sessionID` by `session +':'+ id`
(lines 118 and 140): a missing (`undefined`) session coerces to the fixed
sentinel string `"undefined"`. -/
def sessionStr : Option String → String
  | some s => s
  | none => "undefined"

/-- `id = req.method +'@'+ uri.pathname` (line 78 of `src/index.js`). -/
def routeKey (method pn : String) : String := method ++ "@" ++ pn

/-- `session +':'+ id` (lines 118 and 140 of `src/index.js`). -/
def instanceKey (session : Option String) (id : String) : String :=
  sessionStr session ++ ":" ++ id

/-- The two expiring maps held by the middleware closure: `routes` and
`instances` (lines 31–32 of `src/index.js`). -/
structure State where
  routes : ExpiringMap Resolved
  instances : ExpiringMap PageInstance

/-- The closure state right after `attach`: both maps are fresh
`Expirable('5 minutes')` instances. -/
def State.init : State :=
  ⟨ExpiringMap.empty Resolved fiveMinutes, ExpiringMap.empty PageInstance fiveMinutes⟩

/-- The predicate of the `filter` callback on lines 122–125:
`page.prototype.method.toLowerCase() === req.method.toLowerCase()
  && page.router.test(uri)`. -/
def descrMatches (d : Descriptor) (method pn : String) : Bool :=
  decide (lowercase d.method = lowercase method) && d.router.test pn

/-- The indices of the descriptors whose `router.test` is invoked during one
scan: `Array.prototype.filter` evaluates its callback on every element, and
within the callback `&&` short-circuits, so `router.test` runs exactly for
the descriptors whose method matches case-insensitively. -/
def testedIndices (pages : List Descriptor) (method : String) : List Nat :=
  (List.range pages.length).filter fun j =>
    match pages.get? j with
    | some d => decide (lowercase d.method = lowercase method)
    | none => false

inductive Outcome
  | hit
  | scanMatch
  | forwarded
deriving DecidableEq

/-- What one invocation of the middleware produced: the updated closure
state, how many times `next` was called, the response object, the page
instance constructed (if any), which descriptors had their matcher invoked,
and which code path ran. -/
structure DispatchResult where
  state : State
  nextCalled : Nat
  res : Res
  page : Option PageInstance
  testedIdx : List Nat
  outcome : Outcome

/-- The middleware `middlware(req, res, next)` (lines 76–141 of
`src/index.js`).  `NotFound` is `options['404']`, captured by the closure
(used only by `fourohfour`, which no path calls). -/
def dispatch (pages : List Descriptor) (NotFound : Option Nat) (st : State)
    (req : Request) (res : Res) (now : Nat) : DispatchResult :=
  let pn := pathname req.url
  let id := routeKey req.method pn
  let session := req.sessionID
  match st.routes.get id now with
  | some cached =>
      let page : PageInstance := ⟨cached.Page.ctorId, cached.params⟩
      { state := ⟨st.routes, st.instances.set (instanceKey session id) page now⟩
        nextCalled := 0
        res := res
        page := some page
        testedIdx := []
        outcome := .hit }
  | none =>
      let matched := pages.filter fun page => descrMatches page req.method pn
      match matched with
      | [] =>
          { state := st
            nextCalled := 1
            res := res
            page := none
            testedIdx := testedIndices pages req.method
            outcome := .forwarded }
      | first :: _ =>
          let cached : Resolved := ⟨first, first.router.exec pn⟩
          let routes := st.routes.set id cached now
          let page : PageInstance := ⟨cached.Page.ctorId, cached.params⟩
          { state := ⟨routes, st.instances.set (instanceKey session id) page now⟩
            nextCalled := 0
            res := res
            page := some page
            testedIdx := testedIndices pages req.method
            outcome := .scanMatch }

/-- The error-reporting channel: each error the page instance reports invokes
the subscribed handler `fivehundered.bind(fivehundered, req, res)` (lines 117
and 139 register the handler with `page.on('error', ...)`). -/
def emitErrors (res : Res) (errs : List String) : Res :=
  errs.foldl fivehundered res

/-- The response after the dispatched request's page reports the given list
of errors, in order: the handler is subscribed exactly when a page instance
was constructed. -/
def afterErrors (d : DispatchResult) (errs : List String) : Res :=
  match d.page with
  | some _ => emitErrors d.res errs
  | none => d.res

/-- A sequence of middleware invocations, each with its own clock reading;
every request gets a fresh response object, and only the closure state is
threaded through. -/
def runDispatch (pages : List Descriptor) (NotFound : Option Nat) (st : State)
    (reqs : List (Request × Nat)) : State :=
  reqs.foldl (fun s rn => (dispatch pages NotFound s rn.1 Res.init rn.2).state) st

/-- HTTP methods contain no `'@'`, so the route key `method ++ "@" ++ pathname`
determines the method/pathname pair. -/
def MethodOk (req : Request) : Prop := '@' ∉ req.method.data

/-- Invariant of the route cache: every stored `Resolved` holds a descriptor
drawn from the registered page list. -/
def RoutesFromPages (pages : List Descriptor) (st : State) : Prop :=
  ∀ e ∈ st.routes.entries, e.2.1.Page ∈ pages

/-- Invariant of the route cache: every stored key decodes to a method and a
pathname that some registered descriptor matches. -/
def RoutesMatchable (pages : List Descriptor) (st : State) : Prop :=
  ∀ e ∈ st.routes.entries,
    ∃ m p, e.1 = routeKey m p ∧ '@' ∉ m.data ∧
      ∃ d ∈ pages, descrMatches d m p = true

/-- A raw configured page value, as the `map` callback on lines 51–72 of
`src/index.js` sees it after a possible `require`: its JS `typeof` tag,
whether it is `instanceof exports.Page`, its class-level metadata, and a
possibly pre-existing compiled router. -/
structure PageVal where
  jstype : String
  isPageInstance : Bool
  method : String
  path : String
  router : Option Matcher
  ctorId : Nat

/-- An element of the `pages` array: either a module path string (resolved
through `require`) or a direct value. -/
inductive PageInput
  | str (s : String)
  | val (v : PageVal)

inductive AttachError
  | missingPages
  | invalidPageType (t : String)
  | alreadyInitialized (path : String)
deriving DecidableEq

/-- The body of the `map` callback after the string case (lines 58–71):
reject non-functions, reject already-initialized `Page` instances, compile
the router when the page does not already carry one. -/
def checkPageVal (compile : String → Matcher) (v : PageVal) :
    Except AttachError Descriptor :=
  if v.jstype ≠ "function" then .error (.invalidPageType v.jstype)
  else if v.isPageInstance then .error (.alreadyInitialized v.path)
  else .ok ⟨v.method, v.path, v.router.getD (compile v.path), v.ctorId⟩

/-- One step of the `map` callback (lines 51–72): strings are loaded through
`require` first. -/
def checkPage (requireFn : String → PageVal) (compile : String → Matcher) :
    PageInput → Except AttachError Descriptor
  | .str s => checkPageVal compile (requireFn s)
  | .val v => checkPageVal compile v

/-- `pages.map(function map(page) {...})` with a throwing callback: elements
are processed left to right and the first error aborts. -/
def pagesMap (f : PageInput → Except AttachError Descriptor) :
    List PageInput → Except AttachError (List Descriptor)
  | [] => .ok []
  | x :: xs => do
      let d ← f x
      let ds ← pagesMap f xs
      return d :: ds

/-- The `pages` option: either an explicit array or a directory path read
with `readdirSync` at attach time. -/
inductive PagesOpt
  | arr (l : List PageInput)
  | dir (d : String)

/-- The recognized `attach` options: `pages` (absent when the `'pages' in
options` check fails) and `options['404']` as a constructor identity. -/
structure Options where
  pages : Option PagesOpt
  notFound : Option Nat

/-- A matcher that accepts every pathname and extracts no parameters; used
as a concrete router in test fixtures. -/
def alwaysMatcher : Matcher := ⟨fun _ => true, fun _ => []⟩

/-- Fixture: a `GET /a` page with constructor identity 0. -/
def dA : Descriptor := ⟨"GET", "/a", alwaysMatcher, 0⟩

/-- Fixture: a second `GET /a` page (constructor identity 1) registered after
`dA` and matching the same requests. -/
def dB : Descriptor := ⟨"GET", "/a", alwaysMatcher, 1⟩

/-- Fixture: a `GET /a` request with no session. -/
def reqA : Request := ⟨"GET", "/a", none⟩

/-- Fixture: a `GET /a` request whose session identifier is present but
empty. -/
def reqE : Request := ⟨"GET", "/a", some ""⟩

/-- What `attach` returns on success: the processed page list, the captured
`NotFound` constructor, and the fresh closure state. -/
structure Attached where
  descriptors : List Descriptor
  notFound : Option Nat
  state : State

/-- `exports.attach(server, options)` (lines 28–142 of `src/index.js`),
restricted to its synchronous configuration phase: missing `pages` throws,
a directory is expanded to resolved file paths via the `readdirSync`
collaborator, and every page is validated by the `map` callback before the
middleware closure is produced. -/
def attach (options : Options) (requireFn : String → PageVal)
    (compile : String → Matcher) (readdirSync : String → List String) :
    Except AttachError Attached :=
  match options.pages with
  | none => .error .missingPages
  | some po =>
      let inputs : List PageInput :=
        match po with
        | .arr l => l
        | .dir d => (readdirSync d).map (fun f => .str (d ++ "/" ++ f))
      do
        let descs ← pagesMap (checkPage requireFn compile) inputs
        return ⟨descs, options.notFound, State.init⟩

/-! ## Helper lemmas -/

theorem takeWhile_append_cons (p : Char → Bool) (a : List Char) (x : Char)
    (b : List Char) (ha : ∀ c ∈ a, p c = true) (hx : p x = false) :
    (a ++ x :: b).takeWhile p = a := by
  induction a with
  | nil => simp [List.takeWhile_cons, hx]
  | cons c cs ih =>
      have hc : p c = true := ha c (List.mem_cons_self c cs)
      simp [List.takeWhile_cons, hc, ih (fun y hy => ha y (List.mem_cons_of_mem c hy))]

theorem pathname_append_query (p q : String)
    (hp : ∀ c ∈ p.data, c ≠ '?' ∧ c ≠ '#') :
    pathname (p ++ "?" ++ q) = p := by
  have hdata : (p ++ "?" ++ q).data = p.data ++ '?' :: q.data := by
    rw [String.data_append, String.data_append, List.append_assoc]
    rfl
  show (⟨(p ++ "?" ++ q).data.takeWhile _⟩ : String) = p
  rw [hdata, takeWhile_append_cons _ _ _ _ (fun c hc => decide_eq_true (hp c hc)) (by decide)]

theorem routeKey_data (m p : String) :
    (routeKey m p).data = m.data ++ '@' :: p.data := by
  show (m ++ "@" ++ p).data = _
  rw [String.data_append, String.data_append, List.append_assoc]
  rfl

theorem append_at_inj : ∀ (a c : List Char) {b d : List Char}, '@' ∉ a → '@' ∉ c →
    a ++ '@' :: b = c ++ '@' :: d → a = c ∧ b = d := by
  intro a
  induction a with
  | nil =>
      intro c b d _ hc h
      cases c with
      | nil => simpa using h
      | cons y ys =>
          simp only [List.nil_append, List.cons_append, List.cons.injEq] at h
          exact absurd (h.1 ▸ List.mem_cons_self y ys) (h.1 ▸ hc)
  | cons x xs ih =>
      intro c b d ha hc h
      cases c with
      | nil =>
          simp only [List.nil_append, List.cons_append, List.cons.injEq] at h
          exact absurd (h.1 ▸ List.mem_cons_self x xs) (fun hm => ha (h.1 ▸ hm))
      | cons y ys =>
          simp only [List.cons_append, List.cons.injEq] at h
          have ha' : '@' ∉ xs := fun hm => ha (List.mem_cons_of_mem x hm)
          have hc' : '@' ∉ ys := fun hm => hc (List.mem_cons_of_mem y hm)
          obtain ⟨h₁, h₂⟩ := ih ys ha' hc' h.2
          exact ⟨by rw [h.1, h₁], h₂⟩

theorem routeKey_inj {m₁ p₁ m₂ p₂ : String} (h₁ : '@' ∉ m₁.data)
    (h₂ : '@' ∉ m₂.data) (h : routeKey m₁ p₁ = routeKey m₂ p₂) :
    m₁ = m₂ ∧ p₁ = p₂ := by
  have hd := congrArg String.data h
  rw [routeKey_data, routeKey_data] at hd
  obtain ⟨hm, hp⟩ := append_at_inj _ _ h₁ h₂ hd
  exact ⟨String.ext hm, String.ext hp⟩

theorem routeKey_ne_of_method_ne {m₁ m₂ : String} (p : String) (h : m₁ ≠ m₂) :
    routeKey m₁ p ≠ routeKey m₂ p := by
  intro he
  have hd := congrArg String.data he
  rw [routeKey_data, routeKey_data] at hd
  exact h (String.ext (List.append_cancel_right hd))

theorem instanceKey_ne_of_ne {k₁ k₂ : String} (s : Option String) (h : k₁ ≠ k₂) :
    instanceKey s k₁ ≠ instanceKey s k₂ := by
  intro he
  have hd := congrArg String.data he
  unfold instanceKey at hd
  rw [String.data_append, String.data_append, String.data_append, String.data_append] at hd
  exact h (String.ext (List.append_cancel_left hd))

theorem find?_filter_of_imp {α : Type} (l : List α) (p q : α → Bool)
    (h : ∀ x, p x = true → q x = true) : (l.filter q).find? p = l.find? p := by
  induction l with
  | nil => rfl
  | cons a as ih =>
      by_cases hq : q a = true
      · rw [List.filter_cons_of_pos hq]
        by_cases hp : p a = true
        · rw [List.find?_cons_of_pos _ hp, List.find?_cons_of_pos _ hp]
        · rw [List.find?_cons_of_neg _ (by simpa using hp),
            List.find?_cons_of_neg _ (by simpa using hp), ih]
      · have hp : ¬ p a = true := fun hpa => hq (h a hpa)
        rw [List.filter_cons_of_neg (by simpa using hq),
          List.find?_cons_of_neg _ (by simpa using hp), ih]

theorem ExpiringMap.ttl_set {α : Type} (m : ExpiringMap α) (k : String) (v : α)
    (t : Nat) : (m.set k v t).ttl = m.ttl := rfl

theorem ExpiringMap.get_set_self {α : Type} (m : ExpiringMap α) (k : String)
    (v : α) (t now : Nat) :
    (m.set k v t).get k now = if m.ttl ≤ now - t then none else some v := by
  unfold ExpiringMap.get ExpiringMap.set
  rw [List.find?_cons_of_pos _ (by simp)]

theorem ExpiringMap.get_set_other {α : Type} (m : ExpiringMap α)
    {k k' : String} (hk : k' ≠ k) (v : α) (t now : Nat) :
    (m.set k v t).get k' now = m.get k' now := by
  unfold ExpiringMap.get ExpiringMap.set
  rw [List.find?_cons_of_neg _ (by simpa using fun h => hk h.symm),
    find?_filter_of_imp]
  intro x hx
  have : x.1 = k' := by simpa using hx
  simp [this, hk]

theorem ExpiringMap.get_some_mem {α : Type} (m : ExpiringMap α) (k : String)
    (now : Nat) (v : α) (h : m.get k now = some v) :
    ∃ t, (k, v, t) ∈ m.entries := by
  unfold ExpiringMap.get at h
  cases hf : m.entries.find? (fun e => decide (e.1 = k)) with
  | none => rw [hf] at h; exact absurd h (by simp)
  | some e =>
      rw [hf] at h
      obtain ⟨k', v', t⟩ := e
      replace h : (if m.ttl ≤ now - t then (none : Option α) else some v') = some v := h
      by_cases ht : m.ttl ≤ now - t
      · rw [if_pos ht] at h; exact absurd h (by simp)
      · rw [if_neg ht] at h
        have hk : k' = k := by simpa using List.find?_some hf
        have hv : v' = v := by simpa using h
        exact ⟨t, by rw [← hk, ← hv]; exact List.mem_of_find?_eq_some hf⟩

theorem filter_eq_cons_of_first {α : Type} (p : α → Bool) :
    ∀ (l : List α) (i : Nat) (d : α), l.get? i = some d → p d = true →
      (∀ j dj, j < i → l.get? j = some dj → p dj = false) →
      ∃ rest, l.filter p = d :: rest := by
  intro l
  induction l with
  | nil => intro i d hi; simp at hi
  | cons a as ih =>
      intro i d hi hd hfirst
      cases i with
      | zero =>
          have : a = d := by simpa using hi
          subst this
          exact ⟨as.filter p, List.filter_cons_of_pos hd⟩
      | succ i' =>
          have ha : p a = false :=
            hfirst 0 a (Nat.succ_pos i') (by simp)
          have hi' : as.get? i' = some d := by simpa using hi
          obtain ⟨rest, hrest⟩ := ih i' d hi' hd
            (fun j dj hj hjd => hfirst (j + 1) dj (Nat.succ_lt_succ hj) (by simpa using hjd))
          exact ⟨rest, by rw [List.filter_cons_of_neg (by simp [ha]), hrest]⟩

theorem mem_testedIndices {pages : List Descriptor} {method : String} {i : Nat} :
    i ∈ testedIndices pages method ↔
      ∃ d, pages.get? i = some d ∧ lowercase d.method = lowercase method := by
  unfold testedIndices
  rw [List.mem_filter, List.mem_range]
  constructor
  · rintro ⟨hi, hp⟩
    cases hg : pages.get? i with
    | none => rw [hg] at hp; exact absurd hp (by simp)
    | some d =>
        rw [hg] at hp
        exact ⟨d, rfl, of_decide_eq_true hp⟩
  · rintro ⟨d, hg, hlow⟩
    refine ⟨?_, ?_⟩
    · exact List.get?_eq_some.mp hg |>.1
    · rw [hg]; exact decide_eq_true hlow

theorem testedIndices_nodup (pages : List Descriptor) (method : String) :
    (testedIndices pages method).Nodup :=
  (List.nodup_range pages.length).filter _

theorem fivehundered_fresh (r : Res) (e : String) (h : r.ended = false) :
    fivehundered r e =
      { statusCode := some 500, body := some e, ended := true, writes := r.writes + 1 } := by
  unfold fivehundered Res.setStatus Res.end'
  rw [if_neg (by simp [h]), if_neg (by simp [h])]

theorem fivehundered_of_ended (r : Res) (e : String) (h : r.ended = true) :
    fivehundered r e = r := by
  unfold fivehundered Res.setStatus Res.end'
  rw [if_pos h, if_pos h]

theorem emitErrors_of_ended (r : Res) (es : List String) (h : r.ended = true) :
    emitErrors r es = r := by
  induction es with
  | nil => rfl
  | cons e es ih =>
      show emitErrors (fivehundered r e) es = r
      rw [fivehundered_of_ended r e h, ih]

theorem dispatch_eq_hit (pages : List Descriptor) (NotFound : Option Nat)
    (st : State) (req : Request) (res : Res) (now : Nat) (cached : Resolved)
    (h : st.routes.get (routeKey req.method (pathname req.url)) now = some cached) :
    dispatch pages NotFound st req res now =
      { state := ⟨st.routes,
          st.instances.set
            (instanceKey req.sessionID (routeKey req.method (pathname req.url)))
            ⟨cached.Page.ctorId, cached.params⟩ now⟩
        nextCalled := 0
        res := res
        page := some ⟨cached.Page.ctorId, cached.params⟩
        testedIdx := []
        outcome := .hit } := by
  simp only [dispatch, h]

theorem dispatch_eq_forward (pages : List Descriptor) (NotFound : Option Nat)
    (st : State) (req : Request) (res : Res) (now : Nat)
    (hmiss : st.routes.get (routeKey req.method (pathname req.url)) now = none)
    (hnil : pages.filter
        (fun d => descrMatches d req.method (pathname req.url)) = []) :
    dispatch pages NotFound st req res now =
      { state := st
        nextCalled := 1
        res := res
        page := none
        testedIdx := testedIndices pages req.method
        outcome := .forwarded } := by
  simp only [dispatch, hmiss, hnil]

theorem dispatch_eq_scan (pages : List Descriptor) (NotFound : Option Nat)
    (st : State) (req : Request) (res : Res) (now : Nat) (first : Descriptor)
    (rest : List Descriptor)
    (hmiss : st.routes.get (routeKey req.method (pathname req.url)) now = none)
    (hcons : pages.filter
        (fun d => descrMatches d req.method (pathname req.url)) = first :: rest) :
    dispatch pages NotFound st req res now =
      { state := ⟨st.routes.set (routeKey req.method (pathname req.url))
            ⟨first, first.router.exec (pathname req.url)⟩ now,
          st.instances.set
            (instanceKey req.sessionID (routeKey req.method (pathname req.url)))
            ⟨first.ctorId, first.router.exec (pathname req.url)⟩ now⟩
        nextCalled := 0
        res := res
        page := some ⟨first.ctorId, first.router.exec (pathname req.url)⟩
        testedIdx := testedIndices pages req.method
        outcome := .scanMatch } := by
  simp only [dispatch, hmiss, hcons]

theorem dispatch_res (pages : List Descriptor) (NotFound : Option Nat)
    (st : State) (req : Request) (res : Res) (now : Nat) :
    (dispatch pages NotFound st req res now).res = res := by
  cases hget : st.routes.get (routeKey req.method (pathname req.url)) now with
  | some cached =>
      rw [dispatch_eq_hit pages NotFound st req res now cached hget]
  | none =>
      cases hfil : pages.filter (fun d => descrMatches d req.method (pathname req.url)) with
      | nil => rw [dispatch_eq_forward pages NotFound st req res now hget hfil]
      | cons first rest =>
          rw [dispatch_eq_scan pages NotFound st req res now first rest hget hfil]

theorem routesMatchable_dispatch (pages : List Descriptor) (NotFound : Option Nat)
    (st : State) (req : Request) (res : Res) (now : Nat)
    (hreq : MethodOk req) (hst : RoutesMatchable pages st) :
    RoutesMatchable pages (dispatch pages NotFound st req res now).state := by
  cases hget : st.routes.get (routeKey req.method (pathname req.url)) now with
  | some cached =>
      rw [dispatch_eq_hit pages NotFound st req res now cached hget]
      exact hst
  | none =>
      cases hfil : pages.filter (fun d => descrMatches d req.method (pathname req.url)) with
      | nil =>
          rw [dispatch_eq_forward pages NotFound st req res now hget hfil]
          exact hst
      | cons first rest =>
          rw [dispatch_eq_scan pages NotFound st req res now first rest hget hfil]
          intro e he
          simp only [ExpiringMap.set] at he
          rcases List.mem_cons.mp he with he | he
          · subst he
            refine ⟨req.method, pathname req.url, rfl, hreq, first, ?_, ?_⟩
            · have : first ∈ pages.filter
                  (fun d => descrMatches d req.method (pathname req.url)) := by
                rw [hfil]; exact List.mem_cons_self first rest
              exact (List.mem_filter.mp this).1
            · have : first ∈ pages.filter
                  (fun d => descrMatches d req.method (pathname req.url)) := by
                rw [hfil]; exact List.mem_cons_self first rest
              exact (List.mem_filter.mp this).2
          · exact hst e (List.mem_of_mem_filter he)

theorem routesMatchable_run (pages : List Descriptor) (NotFound : Option Nat)
    (reqs : List (Request × Nat)) (st : State)
    (hreqs : ∀ r ∈ reqs, MethodOk r.1) (hst : RoutesMatchable pages st) :
    RoutesMatchable pages (runDispatch pages NotFound st reqs) := by
  induction reqs generalizing st with
  | nil => exact hst
  | cons r rs ih =>
      show RoutesMatchable pages (runDispatch pages NotFound _ rs)
      exact ih _ (fun x hx => hreqs x (List.mem_cons_of_mem r hx))
        (routesMatchable_dispatch pages NotFound st r.1 Res.init r.2
          (hreqs r (List.mem_cons_self r rs)) hst)

theorem routesFromPages_dispatch (pages : List Descriptor) (NotFound : Option Nat)
    (st : State) (req : Request) (res : Res) (now : Nat)
    (hst : RoutesFromPages pages st) :
    RoutesFromPages pages (dispatch pages NotFound st req res now).state := by
  cases hget : st.routes.get (routeKey req.method (pathname req.url)) now with
  | some cached =>
      rw [dispatch_eq_hit pages NotFound st req res now cached hget]
      exact hst
  | none =>
      cases hfil : pages.filter (fun d => descrMatches d req.method (pathname req.url)) with
      | nil =>
          rw [dispatch_eq_forward pages NotFound st req res now hget hfil]
          exact hst
      | cons first rest =>
          rw [dispatch_eq_scan pages NotFound st req res now first rest hget hfil]
          intro e he
          simp only [ExpiringMap.set] at he
          rcases List.mem_cons.mp he with he | he
          · subst he
            have : first ∈ pages.filter
                (fun d => descrMatches d req.method (pathname req.url)) := by
              rw [hfil]; exact List.mem_cons_self first rest
            exact (List.mem_filter.mp this).1
          · exact hst e (List.mem_of_mem_filter he)

theorem routesFromPages_run (pages : List Descriptor) (NotFound : Option Nat)
    (reqs : List (Request × Nat)) (st : State) (hst : RoutesFromPages pages st) :
    RoutesFromPages pages (runDispatch pages NotFound st reqs) := by
  induction reqs generalizing st with
  | nil => exact hst
  | cons r rs ih =>
      show RoutesFromPages pages (runDispatch pages NotFound _ rs)
      exact ih _ (routesFromPages_dispatch pages NotFound st r.1 Res.init r.2 hst)

theorem pagesMap_error_of_mem (f : PageInput → Except AttachError Descriptor)
    (l : List PageInput) (x : PageInput) (hx : x ∈ l) (e₀ : AttachError)
    (hfx : f x = .error e₀) : ∃ e, pagesMap f l = Except.error e := by
  induction l with
  | nil => cases hx
  | cons a as ih =>
      rcases List.mem_cons.mp hx with rfl | hx'
      · exact ⟨e₀, by simp only [pagesMap, hfx]; rfl⟩
      · obtain ⟨e, he⟩ := ih hx'
        cases hfa : f a with
        | error ea => exact ⟨ea, by simp only [pagesMap, hfa]; rfl⟩
        | ok d => exact ⟨e, by simp only [pagesMap, hfa, he]; rfl⟩

/-! ## Claim theorems -/

/-- C5: the RouteKey is derived from the request's method and pathname only —
for two request URLs that differ only in their query string (same method,
same pathname), the derived RouteKey is identical, so both requests address
the same Route Cache entry. -/
theorem c5_routeKey_ignores_query (m p q₁ q₂ : String)
    (hp : ∀ c ∈ p.data, c ≠ '?' ∧ c ≠ '#') :
    pathname (p ++ "?" ++ q₁) = p ∧
    routeKey m (pathname (p ++ "?" ++ q₁)) =
      routeKey m (pathname (p ++ "?" ++ q₂)) := by
  refine ⟨pathname_append_query p q₁ hp, ?_⟩
  rw [pathname_append_query p q₁ hp, pathname_append_query p q₂ hp]

theorem c5_witness :
    pathname ("/a" ++ "?" ++ "x=1") = "/a" ∧
    routeKey "GET" (pathname ("/a" ++ "?" ++ "x=1")) =
      routeKey "GET" (pathname ("/a" ++ "?" ++ "y=2")) :=
  c5_routeKey_ignores_query "GET" "/a" "x=1" "y=2" (by decide)

/-- C6: the Route Cache and the Instance Registry are both expiring maps
constructed with a 5-minute idle TTL; an entry whose idle time since last
touch is at least the TTL is treated as absent on lookup (never returned),
and becomes available again after a fresh set. -/
theorem c6_five_minute_ttl :
    State.init.routes.ttl = fiveMinutes ∧
    State.init.instances.ttl = fiveMinutes ∧
    (∀ (α : Type) (m : ExpiringMap α) (k : String) (now : Nat)
        (e : String × α × Nat),
      m.entries.find? (fun x => decide (x.1 = k)) = some e →
      m.ttl ≤ now - e.2.2 → m.get k now = none) ∧
    (∀ (α : Type) (m : ExpiringMap α) (k : String) (v : α) (t now : Nat),
      m.ttl ≤ now - t → (m.set k v t).get k now = none) ∧
    (∀ (α : Type) (m : ExpiringMap α) (k : String) (v : α) (t now : Nat),
      now - t < m.ttl → (m.set k v t).get k now = some v) := by
  refine ⟨rfl, rfl, ?_, ?_, ?_⟩
  · intro α m k now e hfind hstale
    obtain ⟨k', v', t⟩ := e
    unfold ExpiringMap.get
    rw [hfind]
    show (if m.ttl ≤ now - t then (none : Option α) else some v') = none
    rw [if_pos hstale]
  · intro α m k v t now hstale
    rw [ExpiringMap.get_set_self, if_pos hstale]
  · intro α m k v t now hfresh
    rw [ExpiringMap.get_set_self, if_neg (Nat.not_le.mpr hfresh)]

theorem c6_witness :
    (ExpiringMap.set (ExpiringMap.empty Nat 5) "k" 7 0).get "k" 5 = none ∧
    (ExpiringMap.set (ExpiringMap.empty Nat 5) "k" 7 0).get "k" 4 = some 7 :=
  ⟨c6_five_minute_ttl.2.2.2.1 Nat (ExpiringMap.empty Nat 5) "k" 7 0 5 (by decide),
   c6_five_minute_ttl.2.2.2.2 Nat (ExpiringMap.empty Nat 5) "k" 7 0 4 (by decide)⟩

/-- C7: a missing or empty session identifier does not make the Dispatcher
throw — the instance key is still constructed (a missing session is
represented by the fixed sentinel string `"undefined"`, an empty session by
the empty string, so the key degenerates to `":" ++ RouteKey`), and the page
instance is registered under that key. -/
theorem c7_missing_or_empty_session (pages : List Descriptor)
    (NotFound : Option Nat) (st : State) (req : Request) (res : Res)
    (now : Nat) (p : PageInstance)
    (httl : 0 < st.instances.ttl)
    (hs : req.sessionID = none ∨ req.sessionID = some "")
    (hp : (dispatch pages NotFound st req res now).page = some p) :
    (req.sessionID = none →
      instanceKey req.sessionID (routeKey req.method (pathname req.url)) =
        "undefined" ++ ":" ++ routeKey req.method (pathname req.url)) ∧
    (req.sessionID = some "" →
      instanceKey req.sessionID (routeKey req.method (pathname req.url)) =
        ":" ++ routeKey req.method (pathname req.url)) ∧
    (sessionStr req.sessionID = "undefined" ∨ sessionStr req.sessionID = "") ∧
    (dispatch pages NotFound st req res now).state.instances.get
      (instanceKey req.sessionID (routeKey req.method (pathname req.url)))
      now = some p := by
  refine ⟨fun h => by unfold instanceKey; rw [h]; rfl,
    fun h => by unfold instanceKey; rw [h]; rfl,
    hs.elim (fun h => Or.inl (by rw [h]; rfl)) (fun h => Or.inr (by rw [h]; rfl)),
    ?_⟩
  have hnotle : ¬ st.instances.ttl ≤ now - now := by
    rw [Nat.sub_self]
    exact Nat.not_le.mpr httl
  cases hget : st.routes.get (routeKey req.method (pathname req.url)) now with
  | some cached =>
      rw [dispatch_eq_hit pages NotFound st req res now cached hget] at hp ⊢
      rw [ExpiringMap.get_set_self, if_neg hnotle]
      exact hp
  | none =>
      cases hfil : pages.filter
          (fun d => descrMatches d req.method (pathname req.url)) with
      | nil =>
          rw [dispatch_eq_forward pages NotFound st req res now hget hfil] at hp
          exact absurd hp (by simp)
      | cons first rest =>
          rw [dispatch_eq_scan pages NotFound st req res now first rest hget hfil]
            at hp ⊢
          rw [ExpiringMap.get_set_self, if_neg hnotle]
          exact hp

theorem c7_witness :
    ((reqA.sessionID = none →
      instanceKey reqA.sessionID (routeKey "GET" (pathname "/a")) =
        "undefined" ++ ":" ++ routeKey "GET" (pathname "/a")) ∧
    (reqA.sessionID = some "" →
      instanceKey reqA.sessionID (routeKey "GET" (pathname "/a")) =
        ":" ++ routeKey "GET" (pathname "/a")) ∧
    (sessionStr reqA.sessionID = "undefined" ∨ sessionStr reqA.sessionID = "") ∧
    (dispatch [dA] none State.init reqA Res.init 0).state.instances.get
      (instanceKey reqA.sessionID (routeKey "GET" (pathname "/a")))
      0 = some ⟨0, []⟩) ∧
    ((reqE.sessionID = none →
      instanceKey reqE.sessionID (routeKey "GET" (pathname "/a")) =
        "undefined" ++ ":" ++ routeKey "GET" (pathname "/a")) ∧
    (reqE.sessionID = some "" →
      instanceKey reqE.sessionID (routeKey "GET" (pathname "/a")) =
        ":" ++ routeKey "GET" (pathname "/a")) ∧
    (sessionStr reqE.sessionID = "undefined" ∨ sessionStr reqE.sessionID = "") ∧
    (dispatch [dA] none State.init reqE Res.init 0).state.instances.get
      (instanceKey reqE.sessionID (routeKey "GET" (pathname "/a")))
      0 = some ⟨0, []⟩) :=
  ⟨c7_missing_or_empty_session [dA] none State.init reqA Res.init 0 ⟨0, []⟩
     (by decide) (Or.inl rfl) (by decide),
   c7_missing_or_empty_session [dA] none State.init reqE Res.init 0 ⟨0, []⟩
     (by decide) (Or.inr rfl) (by decide)⟩

/-- C8: `attach` fails fast with a synchronous error at attach time when the
`pages` option is absent, when a supplied page is not a constructor function,
or when a supplied page is an already-initialized Page instance; since
`attach` returns an error instead of a middleware, none of these conditions
can surface as a per-request failure. -/
theorem c8_attach_fails_fast (options : Options) (requireFn : String → PageVal)
    (compile : String → Matcher) (readdirSync : String → List String) :
    (options.pages = none →
      attach options requireFn compile readdirSync = .error .missingPages) ∧
    (∀ l v, options.pages = some (.arr l) → PageInput.val v ∈ l →
      v.jstype ≠ "function" →
      ∃ e, attach options requireFn compile readdirSync = Except.error e) ∧
    (∀ l v, options.pages = some (.arr l) → PageInput.val v ∈ l →
      v.jstype = "function" → v.isPageInstance = true →
      ∃ e, attach options requireFn compile readdirSync = Except.error e) := by
  refine ⟨?_, ?_, ?_⟩
  · intro h
    simp only [attach, h]
  · intro l v hopt hv hjs
    have hcheck : checkPage requireFn compile (.val v) =
        .error (.invalidPageType v.jstype) := by
      simp [checkPage, checkPageVal, hjs]
    obtain ⟨e, he⟩ := pagesMap_error_of_mem (checkPage requireFn compile) l
      (.val v) hv _ hcheck
    refine ⟨e, ?_⟩
    simp only [attach, hopt, he]
    rfl
  · intro l v hopt hv hjs hinst
    have hcheck : checkPage requireFn compile (.val v) =
        .error (.alreadyInitialized v.path) := by
      simp [checkPage, checkPageVal, hjs, hinst]
    obtain ⟨e, he⟩ := pagesMap_error_of_mem (checkPage requireFn compile) l
      (.val v) hv _ hcheck
    refine ⟨e, ?_⟩
    simp only [attach, hopt, he]
    rfl

theorem c8_witness :
    attach ⟨none, none⟩ (fun _ => ⟨"function", false, "GET", "/a", none, 0⟩)
      (fun _ => alwaysMatcher) (fun _ => []) = .error .missingPages ∧
    (∃ e, attach ⟨some (.arr [.val ⟨"object", false, "GET", "/a", none, 0⟩]), none⟩
      (fun _ => ⟨"function", false, "GET", "/a", none, 0⟩)
      (fun _ => alwaysMatcher) (fun _ => []) = Except.error e) ∧
    (∃ e, attach ⟨some (.arr [.val ⟨"function", true, "GET", "/a", none, 0⟩]), none⟩
      (fun _ => ⟨"function", false, "GET", "/a", none, 0⟩)
      (fun _ => alwaysMatcher) (fun _ => []) = Except.error e) :=
  ⟨(c8_attach_fails_fast ⟨none, none⟩ _ _ _).1 rfl,
   (c8_attach_fails_fast _ _ _ _).2.1 _ ⟨"object", false, "GET", "/a", none, 0⟩
     rfl (List.mem_cons_self _ _) (by decide),
   (c8_attach_fails_fast _ _ _ _).2.2 _ ⟨"function", true, "GET", "/a", none, 0⟩
     rfl (List.mem_cons_self _ _) rfl rfl⟩

/-- C4: when the instantiated page reports an error through its
error-reporting channel, exactly one HTTP 500 response is written, with the
(first) error's message as the body; a second error report from the same
instance does not write a second response (the write count rises by exactly
one no matter how many further errors follow). -/
theorem c4_single_500 (pages : List Descriptor) (NotFound : Option Nat)
    (st : State) (req : Request) (res : Res) (now : Nat) (p : PageInstance)
    (e : String) (es : List String)
    (hres : res.ended = false)
    (hp : (dispatch pages NotFound st req res now).page = some p) :
    afterErrors (dispatch pages NotFound st req res now) (e :: es) =
      { statusCode := some 500, body := some e, ended := true,
        writes := res.writes + 1 } := by
  unfold afterErrors
  rw [hp]
  show emitErrors (dispatch pages NotFound st req res now).res (e :: es) = _
  rw [dispatch_res]
  show emitErrors (fivehundered res e) es = _
  rw [fivehundered_fresh res e hres]
  exact emitErrors_of_ended _ es rfl

theorem c4_witness :
    afterErrors (dispatch [dA] none State.init reqA Res.init 0)
      ["boom", "again"] =
      { statusCode := some 500, body := some "boom", ended := true,
        writes := 1 } :=
  c4_single_500 [dA] none State.init reqA Res.init 0 ⟨0, []⟩ "boom" ["again"]
    rfl (by decide)

/-- C2 counterexample: two pages both matching `GET /a` are registered; the
scan chooses the first-registered one, yet the second page's matcher is
still invoked (index 1 appears in `testedIdx`), because `Array.prototype.filter`
evaluates its callback on every element — refuting the claim that the
remaining descriptors are not evaluated once a match is found. -/
theorem c2_counterexample :
    descrMatches dA "GET" (pathname "/a") = true ∧
    (dispatch [dA, dB] none State.init reqA Res.init 0).page = some ⟨0, []⟩ ∧
    (dispatch [dA, dB] none State.init reqA Res.init 0).testedIdx = [0, 1] := by
  refine ⟨by decide, by decide, by decide⟩

/-- C2 (amended): on a Route Cache miss the Dispatcher scans the registered
pages in registration order; a descriptor matches iff its method equals the
request method case-insensitively and its compiled matcher tests true; the
first matching descriptor in registration order is chosen deterministically.
However, the scan does NOT short-circuit: every registered descriptor's
predicate is evaluated, and descriptor `j`'s matcher is invoked exactly when
its method matches, regardless of any earlier match. -/
theorem c2_first_match_wins (pages : List Descriptor) (NotFound : Option Nat)
    (st : State) (req : Request) (res : Res) (now : Nat) (i : Nat)
    (d : Descriptor)
    (hmiss : st.routes.get (routeKey req.method (pathname req.url)) now = none)
    (hi : pages.get? i = some d)
    (hd : descrMatches d req.method (pathname req.url) = true)
    (hfirst : ∀ j dj, j < i → pages.get? j = some dj →
      descrMatches dj req.method (pathname req.url) = false) :
    (dispatch pages NotFound st req res now).outcome = .scanMatch ∧
    (dispatch pages NotFound st req res now).page =
      some ⟨d.ctorId, d.router.exec (pathname req.url)⟩ ∧
    (∀ j dj, pages.get? j = some dj →
      (j ∈ (dispatch pages NotFound st req res now).testedIdx ↔
        lowercase dj.method = lowercase req.method)) := by
  obtain ⟨rest, hrest⟩ :=
    filter_eq_cons_of_first (fun x => descrMatches x req.method (pathname req.url))
      pages i d hi hd hfirst
  rw [dispatch_eq_scan pages NotFound st req res now d rest hmiss hrest]
  refine ⟨rfl, rfl, ?_⟩
  intro j dj hj
  rw [mem_testedIndices]
  constructor
  · rintro ⟨d', hd', hlow⟩
    rw [hj] at hd'
    rw [← Option.some.inj hd'] at hlow
    exact hlow
  · intro hlow
    exact ⟨dj, hj, hlow⟩

theorem c2_witness :
    (dispatch [dA, dB] none State.init reqA Res.init 0).outcome = .scanMatch ∧
    (dispatch [dA, dB] none State.init reqA Res.init 0).page =
      some ⟨dA.ctorId, dA.router.exec (pathname "/a")⟩ ∧
    (∀ j dj, [dA, dB].get? j = some dj →
      (j ∈ (dispatch [dA, dB] none State.init reqA Res.init 0).testedIdx ↔
        lowercase dj.method = lowercase "GET")) :=
  c2_first_match_wins [dA, dB] none State.init reqA Res.init 0 0 dA
    rfl rfl (by decide)
    (fun j dj hj _ => absurd hj (Nat.not_lt_zero j))

/-- C1: for a request hitting the Route Cache the Dispatcher instantiates
the page from the cached constructor and params without scanning or invoking
any matcher; on a scan match the resolved route is stored into the cache
keyed by the RouteKey, so a second identical request (same method and
pathname, within TTL) takes the cache-hit path, the winning descriptor's
matcher having been invoked exactly once in total across both requests. -/
theorem c1_route_cache_hit (pages : List Descriptor) (NotFound : Option Nat)
    (st : State) (req : Request) (res res' : Res) (now now' : Nat) (i : Nat)
    (d : Descriptor)
    (hmiss : st.routes.get (routeKey req.method (pathname req.url)) now = none)
    (httl : now' - now < st.routes.ttl)
    (hi : pages.get? i = some d)
    (hd : descrMatches d req.method (pathname req.url) = true)
    (hfirst : ∀ j dj, j < i → pages.get? j = some dj →
      descrMatches dj req.method (pathname req.url) = false) :
    (dispatch pages NotFound st req res now).outcome = .scanMatch ∧
    (dispatch pages NotFound st req res now).state.routes.get
      (routeKey req.method (pathname req.url)) now' =
      some ⟨d, d.router.exec (pathname req.url)⟩ ∧
    (dispatch pages NotFound (dispatch pages NotFound st req res now).state
      req res' now').outcome = .hit ∧
    (dispatch pages NotFound (dispatch pages NotFound st req res now).state
      req res' now').testedIdx = [] ∧
    (dispatch pages NotFound (dispatch pages NotFound st req res now).state
      req res' now').page = (dispatch pages NotFound st req res now).page ∧
    (dispatch pages NotFound st req res now).page =
      some ⟨d.ctorId, d.router.exec (pathname req.url)⟩ ∧
    ((dispatch pages NotFound st req res now).testedIdx ++
      (dispatch pages NotFound (dispatch pages NotFound st req res now).state
        req res' now').testedIdx).count i = 1 := by
  obtain ⟨rest, hrest⟩ :=
    filter_eq_cons_of_first (fun x => descrMatches x req.method (pathname req.url))
      pages i d hi hd hfirst
  have h1 := dispatch_eq_scan pages NotFound st req res now d rest hmiss hrest
  have hget2 : (dispatch pages NotFound st req res now).state.routes.get
      (routeKey req.method (pathname req.url)) now' =
      some ⟨d, d.router.exec (pathname req.url)⟩ := by
    rw [h1]
    rw [ExpiringMap.get_set_self, if_neg (Nat.not_le.mpr httl)]
  have h2 := dispatch_eq_hit pages NotFound
    (dispatch pages NotFound st req res now).state req res' now'
    ⟨d, d.router.exec (pathname req.url)⟩ hget2
  have hmem : i ∈ testedIndices pages req.method := by
    rw [mem_testedIndices]
    refine ⟨d, hi, ?_⟩
    have h := hd
    unfold descrMatches at h
    simp only [Bool.and_eq_true, decide_eq_true_eq] at h
    exact h.1
  refine ⟨by rw [h1], hget2, by rw [h2], by rw [h2], by rw [h2, h1], by rw [h1], ?_⟩
  rw [h2, h1]
  show ((testedIndices pages req.method) ++ []).count i = 1
  rw [List.append_nil]
  exact List.count_eq_one_of_mem (testedIndices_nodup pages req.method) hmem

theorem c1_witness :
    (dispatch [dA] none State.init reqA Res.init 0).outcome = .scanMatch ∧
    (dispatch [dA] none State.init reqA Res.init 0).state.routes.get
      (routeKey "GET" (pathname "/a")) 100 =
      some ⟨dA, dA.router.exec (pathname "/a")⟩ ∧
    (dispatch [dA] none (dispatch [dA] none State.init reqA Res.init 0).state
      reqA Res.init 100).outcome = .hit ∧
    (dispatch [dA] none (dispatch [dA] none State.init reqA Res.init 0).state
      reqA Res.init 100).testedIdx = [] ∧
    (dispatch [dA] none (dispatch [dA] none State.init reqA Res.init 0).state
      reqA Res.init 100).page =
      (dispatch [dA] none State.init reqA Res.init 0).page ∧
    (dispatch [dA] none State.init reqA Res.init 0).page =
      some ⟨dA.ctorId, dA.router.exec (pathname "/a")⟩ ∧
    ((dispatch [dA] none State.init reqA Res.init 0).testedIdx ++
      (dispatch [dA] none (dispatch [dA] none State.init reqA Res.init 0).state
        reqA Res.init 100).testedIdx).count 0 = 1 :=
  c1_route_cache_hit [dA] none State.init reqA Res.init Res.init 0 100 0 dA
    rfl (by decide) rfl (by decide)
    (fun j dj hj _ => absurd hj (Nat.not_lt_zero j))

/-- C3: for a request that no registered descriptor matches (method and
matcher both considered), reaching the middleware in any state reachable
from attach (with `'@'`-free request methods, as HTTP methods are), and
regardless of whether a NotFound page was configured, the Dispatcher calls
`next` exactly once and writes no response: the response object is returned
untouched and no page is instantiated. -/
theorem c3_no_match_forwards (pages : List Descriptor) (NotFound : Option Nat)
    (reqs : List (Request × Nat)) (req : Request) (res : Res) (now : Nat)
    (hreqs : ∀ r ∈ reqs, MethodOk r.1)
    (hreq : MethodOk req)
    (hnone : ∀ d ∈ pages, descrMatches d req.method (pathname req.url) = false) :
    (dispatch pages NotFound (runDispatch pages NotFound State.init reqs)
      req res now).outcome = .forwarded ∧
    (dispatch pages NotFound (runDispatch pages NotFound State.init reqs)
      req res now).nextCalled = 1 ∧
    (dispatch pages NotFound (runDispatch pages NotFound State.init reqs)
      req res now).res = res ∧
    (dispatch pages NotFound (runDispatch pages NotFound State.init reqs)
      req res now).page = none := by
  have hinv : RoutesMatchable pages (runDispatch pages NotFound State.init reqs) :=
    routesMatchable_run pages NotFound reqs State.init hreqs
      (by intro e he; cases he)
  have hmiss : (runDispatch pages NotFound State.init reqs).routes.get
      (routeKey req.method (pathname req.url)) now = none := by
    cases hget : (runDispatch pages NotFound State.init reqs).routes.get
        (routeKey req.method (pathname req.url)) now with
    | none => rfl
    | some cached =>
        obtain ⟨t, hmem⟩ := ExpiringMap.get_some_mem _ _ _ _ hget
        obtain ⟨m', p', hkey, hm', d, hdmem, hmatch⟩ := hinv _ hmem
        obtain ⟨hm, hp⟩ := routeKey_inj hreq hm' hkey
        have hfalse := hnone d hdmem
        rw [hm, hp] at hfalse
        rw [hfalse] at hmatch
        exact absurd hmatch (by decide)
  have hnil : pages.filter
      (fun d => descrMatches d req.method (pathname req.url)) = [] := by
    rw [List.filter_eq_nil]
    intro d hdmem
    rw [hnone d hdmem]
    exact Bool.false_ne_true
  rw [dispatch_eq_forward pages NotFound
    (runDispatch pages NotFound State.init reqs) req res now hmiss hnil]
  exact ⟨rfl, rfl, rfl, rfl⟩

theorem c3_witness :
    MethodOk reqA ∧
    (dispatch [dA] none (runDispatch [dA] none State.init [(reqA, 0)])
      ⟨"POST", "/a", none⟩ Res.init 7).outcome = .forwarded ∧
    (dispatch [dA] none (runDispatch [dA] none State.init [(reqA, 0)])
      ⟨"POST", "/a", none⟩ Res.init 7).nextCalled = 1 ∧
    (dispatch [dA] none (runDispatch [dA] none State.init [(reqA, 0)])
      ⟨"POST", "/a", none⟩ Res.init 7).res = Res.init ∧
    (dispatch [dA] none (runDispatch [dA] none State.init [(reqA, 0)])
      ⟨"POST", "/a", none⟩ Res.init 7).page = none := by
  refine ⟨by unfold MethodOk; decide, ?_⟩
  have h := c3_no_match_forwards [dA] none [(reqA, 0)] ⟨"POST", "/a", none⟩
    Res.init 7 (fun r hr => by rw [List.mem_singleton.mp hr]; unfold MethodOk; decide)
    (by unfold MethodOk; decide) (by decide)
  exact ⟨h.1, h.2.1, h.2.2.1, h.2.2.2⟩

/-- C9: no execution path of the middleware invokes the not-found handler
`fourohfour`: the response is always returned unwritten, a forward calls
`next` once without instantiating anything, and every page instance the
middleware ever constructs (from any state reachable from attach) comes
from a registered descriptor's constructor — in particular never from the
configured `'404'` NotFound constructor when that constructor is not among
the registered pages. -/
theorem c9_fourohfour_unreachable (pages : List Descriptor)
    (NotFound : Option Nat) (reqs : List (Request × Nat)) (req : Request)
    (res : Res) (now : Nat) :
    (dispatch pages NotFound (runDispatch pages NotFound State.init reqs)
      req res now).res = res ∧
    ((dispatch pages NotFound (runDispatch pages NotFound State.init reqs)
      req res now).outcome = .forwarded →
      (dispatch pages NotFound (runDispatch pages NotFound State.init reqs)
        req res now).nextCalled = 1 ∧
      (dispatch pages NotFound (runDispatch pages NotFound State.init reqs)
        req res now).page = none) ∧
    (∀ p, (dispatch pages NotFound (runDispatch pages NotFound State.init reqs)
      req res now).page = some p → ∃ d ∈ pages, p.ctorId = d.ctorId) ∧
    (∀ nf, NotFound = some nf → (∀ d ∈ pages, d.ctorId ≠ nf) →
      ∀ p, (dispatch pages NotFound (runDispatch pages NotFound State.init reqs)
        req res now).page = some p → p.ctorId ≠ nf) := by
  have hinv : RoutesFromPages pages (runDispatch pages NotFound State.init reqs) :=
    routesFromPages_run pages NotFound reqs State.init (by intro e he; cases he)
  have hthird : ∀ p,
      (dispatch pages NotFound (runDispatch pages NotFound State.init reqs)
        req res now).page = some p → ∃ d ∈ pages, p.ctorId = d.ctorId := by
    intro p hp
    cases hget : (runDispatch pages NotFound State.init reqs).routes.get
        (routeKey req.method (pathname req.url)) now with
    | some cached =>
        rw [dispatch_eq_hit pages NotFound _ req res now cached hget] at hp
        obtain ⟨t, hmem⟩ := ExpiringMap.get_some_mem _ _ _ _ hget
        refine ⟨cached.Page, hinv _ hmem, ?_⟩
        rw [← Option.some.inj hp]
    | none =>
        cases hfil : pages.filter
            (fun d => descrMatches d req.method (pathname req.url)) with
        | nil =>
            rw [dispatch_eq_forward pages NotFound _ req res now hget hfil] at hp
            exact absurd hp (by simp)
        | cons first rest =>
            rw [dispatch_eq_scan pages NotFound _ req res now first rest hget hfil]
              at hp
            have hfmem : first ∈ pages.filter
                (fun d => descrMatches d req.method (pathname req.url)) := by
              rw [hfil]; exact List.mem_cons_self first rest
            refine ⟨first, List.mem_of_mem_filter hfmem, ?_⟩
            rw [← Option.some.inj hp]
  refine ⟨dispatch_res pages NotFound _ req res now, ?_, hthird, ?_⟩
  · intro hfwd
    cases hget : (runDispatch pages NotFound State.init reqs).routes.get
        (routeKey req.method (pathname req.url)) now with
    | some cached =>
        rw [dispatch_eq_hit pages NotFound _ req res now cached hget] at hfwd
        simp at hfwd
    | none =>
        cases hfil : pages.filter
            (fun d => descrMatches d req.method (pathname req.url)) with
        | nil =>
            rw [dispatch_eq_forward pages NotFound _ req res now hget hfil]
            exact ⟨rfl, rfl⟩
        | cons first rest =>
            rw [dispatch_eq_scan pages NotFound _ req res now first rest hget hfil]
              at hfwd
            simp at hfwd
  · intro nf hnf hnot p hp
    obtain ⟨d, hdmem, heq⟩ := hthird p hp
    rw [heq]
    exact hnot d hdmem

theorem c9_witness :
    (dispatch [dA] (some 9) (runDispatch [dA] (some 9) State.init [(reqA, 0)])
      reqA Res.init 5).res = Res.init ∧
    (∀ p, (dispatch [dA] (some 9)
        (runDispatch [dA] (some 9) State.init [(reqA, 0)]) reqA Res.init 5).page =
        some p → ∃ d ∈ [dA], p.ctorId = d.ctorId) ∧
    (∀ p, (dispatch [dA] (some 9)
        (runDispatch [dA] (some 9) State.init [(reqA, 0)]) reqA Res.init 5).page =
        some p → p.ctorId ≠ 9) := by
  have h := c9_fourohfour_unreachable [dA] (some 9) [(reqA, 0)] reqA Res.init 5
  refine ⟨h.1, h.2.2.1, ?_⟩
  exact h.2.2.2 9 rfl (fun d hd => by rw [List.mem_singleton.mp hd]; decide)

/-- C10: the RouteKey and InstanceKey use the request method verbatim while
descriptor matching lowercases it: two requests identical except for the
letter case of the method resolve to the same descriptor (same constructor
and params) but produce distinct route-cache keys and distinct
instance-registry keys; the second request misses the cache, runs its own
scan (its `testedIdx` is nonempty), and both cache entries coexist
afterwards. -/
theorem c10_method_case_sensitivity (d : Descriptor) (NotFound : Option Nat)
    (u : String) (s : Option String) (res res' : Res) (m₁ m₂ : String)
    (now now' : Nat)
    (hm : m₁ ≠ m₂)
    (hlow : lowercase m₁ = lowercase m₂)
    (hdm : lowercase d.method = lowercase m₂)
    (htest : d.router.test (pathname u) = true)
    (httl : now' - now < fiveMinutes) :
    routeKey m₁ (pathname u) ≠ routeKey m₂ (pathname u) ∧
    instanceKey s (routeKey m₁ (pathname u)) ≠
      instanceKey s (routeKey m₂ (pathname u)) ∧
    (dispatch [d] NotFound State.init ⟨m₁, u, s⟩ res now).outcome = .scanMatch ∧
    (dispatch [d] NotFound
      (dispatch [d] NotFound State.init ⟨m₁, u, s⟩ res now).state
      ⟨m₂, u, s⟩ res' now').outcome = .scanMatch ∧
    0 ∈ (dispatch [d] NotFound
      (dispatch [d] NotFound State.init ⟨m₁, u, s⟩ res now).state
      ⟨m₂, u, s⟩ res' now').testedIdx ∧
    (dispatch [d] NotFound State.init ⟨m₁, u, s⟩ res now).page =
      some ⟨d.ctorId, d.router.exec (pathname u)⟩ ∧
    (dispatch [d] NotFound
      (dispatch [d] NotFound State.init ⟨m₁, u, s⟩ res now).state
      ⟨m₂, u, s⟩ res' now').page =
      (dispatch [d] NotFound State.init ⟨m₁, u, s⟩ res now).page ∧
    (dispatch [d] NotFound
      (dispatch [d] NotFound State.init ⟨m₁, u, s⟩ res now).state
      ⟨m₂, u, s⟩ res' now').state.routes.get (routeKey m₁ (pathname u)) now' =
      some ⟨d, d.router.exec (pathname u)⟩ ∧
    (dispatch [d] NotFound
      (dispatch [d] NotFound State.init ⟨m₁, u, s⟩ res now).state
      ⟨m₂, u, s⟩ res' now').state.routes.get (routeKey m₂ (pathname u)) now' =
      some ⟨d, d.router.exec (pathname u)⟩ := by
  have hkey : routeKey m₁ (pathname u) ≠ routeKey m₂ (pathname u) :=
    routeKey_ne_of_method_ne (pathname u) hm
  have hdm₁ : lowercase d.method = lowercase m₁ := hdm.trans hlow.symm
  have hmatch₁ : descrMatches d m₁ (pathname u) = true := by
    unfold descrMatches
    rw [htest, hdm₁]
    simp
  have hmatch₂ : descrMatches d m₂ (pathname u) = true := by
    unfold descrMatches
    rw [htest, hdm]
    simp
  have hfil₁ : [d].filter (fun x => descrMatches x m₁ (pathname u)) = [d] := by
    rw [List.filter_cons, hmatch₁, if_pos rfl]
    rfl
  have hfil₂ : [d].filter (fun x => descrMatches x m₂ (pathname u)) = [d] := by
    rw [List.filter_cons, hmatch₂, if_pos rfl]
    rfl
  have hm₁get : State.init.routes.get (routeKey m₁ (pathname u)) now = none := rfl
  have h1 := dispatch_eq_scan [d] NotFound State.init ⟨m₁, u, s⟩ res now d []
    hm₁get hfil₁
  have hm₂get : (dispatch [d] NotFound State.init ⟨m₁, u, s⟩ res now).state.routes.get
      (routeKey m₂ (pathname u)) now' = none := by
    simp only [h1]
    rw [ExpiringMap.get_set_other _ (fun h => hkey h.symm)]
    rfl
  have h2 := dispatch_eq_scan [d] NotFound
    (dispatch [d] NotFound State.init ⟨m₁, u, s⟩ res now).state
    ⟨m₂, u, s⟩ res' now' d [] hm₂get hfil₂
  have httl0 : 0 < fiveMinutes := Nat.lt_of_le_of_lt (Nat.zero_le _) httl
  refine ⟨hkey, instanceKey_ne_of_ne s hkey, by simp only [h1], by simp only [h2],
    by rw [h2]; exact mem_testedIndices.mpr ⟨d, rfl, hdm⟩,
    by simp only [h1], by rw [h2, h1],
    ?_, ?_⟩
  · rw [h2]
    show ((dispatch [d] NotFound State.init ⟨m₁, u, s⟩ res now).state.routes.set
        (routeKey m₂ (pathname u)) ⟨d, d.router.exec (pathname u)⟩ now').get
        (routeKey m₁ (pathname u)) now' = some ⟨d, d.router.exec (pathname u)⟩
    rw [ExpiringMap.get_set_other _ hkey, h1]
    show (State.init.routes.set (routeKey m₁ (pathname u))
        ⟨d, d.router.exec (pathname u)⟩ now).get (routeKey m₁ (pathname u)) now' =
      some ⟨d, d.router.exec (pathname u)⟩
    rw [ExpiringMap.get_set_self]
    exact if_neg (Nat.not_le.mpr httl)
  · rw [h2]
    show ((dispatch [d] NotFound State.init ⟨m₁, u, s⟩ res now).state.routes.set
        (routeKey m₂ (pathname u)) ⟨d, d.router.exec (pathname u)⟩ now').get
        (routeKey m₂ (pathname u)) now' = some ⟨d, d.router.exec (pathname u)⟩
    rw [ExpiringMap.get_set_self, Nat.sub_self, h1]
    exact if_neg (Nat.not_le.mpr httl0)

theorem c10_witness :
    routeKey "GET" (pathname "/a") ≠ routeKey "get" (pathname "/a") ∧
    instanceKey none (routeKey "GET" (pathname "/a")) ≠
      instanceKey none (routeKey "get" (pathname "/a")) ∧
    (dispatch [dA] none State.init ⟨"GET", "/a", none⟩ Res.init 0).outcome =
      .scanMatch ∧
    (dispatch [dA] none
      (dispatch [dA] none State.init ⟨"GET", "/a", none⟩ Res.init 0).state
      ⟨"get", "/a", none⟩ Res.init 50).outcome = .scanMatch ∧
    0 ∈ (dispatch [dA] none
      (dispatch [dA] none State.init ⟨"GET", "/a", none⟩ Res.init 0).state
      ⟨"get", "/a", none⟩ Res.init 50).testedIdx ∧
    (dispatch [dA] none State.init ⟨"GET", "/a", none⟩ Res.init 0).page =
      some ⟨dA.ctorId, dA.router.exec (pathname "/a")⟩ ∧
    (dispatch [dA] none
      (dispatch [dA] none State.init ⟨"GET", "/a", none⟩ Res.init 0).state
      ⟨"get", "/a", none⟩ Res.init 50).page =
      (dispatch [dA] none State.init ⟨"GET", "/a", none⟩ Res.init 0).page ∧
    (dispatch [dA] none
      (dispatch [dA] none State.init ⟨"GET", "/a", none⟩ Res.init 0).state
      ⟨"get", "/a", none⟩ Res.init 50).state.routes.get
      (routeKey "GET" (pathname "/a")) 50 = some ⟨dA, dA.router.exec (pathname "/a")⟩ ∧
    (dispatch [dA] none
      (dispatch [dA] none State.init ⟨"GET", "/a", none⟩ Res.init 0).state
      ⟨"get", "/a", none⟩ Res.init 50).state.routes.get
      (routeKey "get" (pathname "/a")) 50 = some ⟨dA, dA.router.exec (pathname "/a")⟩ :=
  c10_method_case_sensitivity dA none "/a" none Res.init Res.init "GET" "get"
    0 50 (by decide) (by decide) (by decide) (by decide) (by decide)

end Bigpipe
